import Mathlib

/-!
Verification of the multi-source silver price aggregation module
(`src/lib/silverApi.ts`) of the truvio-studios repository.

The TypeScript module is shallowly embedded in Lean 4:
* JavaScript numbers are idealised as rationals (`ℚ`); `x.toFixed(2)`
  followed by `parseFloat` is modelled as rounding to two decimals.
* `Date.now()` timestamps are integers (`ℤ`, milliseconds).
* `Math.random()` draws are passed in explicitly as rational parameters
  in `[0, 1)`.
* The module-level mutable variables (`retryCount`, `baseGlobalPrice`,
  `baseChinaPrice`, the in-memory caches) together with the three
  localStorage slots form an explicit state record `ApiState`; the
  exported async functions become state-passing functions
  `ApiState → input → result × ApiState`.
* A fetcher's network interaction is modelled by an `Option ApiResponse`
  input: `none` is a transport failure (the fetcher catches it and
  yields `none`), `some r` a decoded JSON response.
-/

namespace SilverApi

/-- `ExchangePrice` record from `src/lib/types.ts`. -/
structure ExchangePrice where
  exchange : String
  price : ℚ
  weight : ℚ
  active : Bool
  timestamp : ℤ
deriving DecidableEq

/-- `PricePoint` record from `src/lib/types.ts`; the optional
`exchanges` map is a list of (exchange name, price) pairs. -/
structure PricePoint where
  time : ℤ
  price : ℚ
  exchanges : Option (List (String × ℚ)) := none
deriving DecidableEq

/-- `SilverPrice` record from `src/lib/types.ts` (the optional fields
stay optional). -/
structure SilverPrice where
  price : ℚ
  change : ℚ
  changePercent : ℚ
  timestamp : ℤ
  high24h : Option ℚ := none
  low24h : Option ℚ := none
  volume24h : Option ℤ := none
  exchanges : Option (List ExchangePrice) := none
deriving DecidableEq

/-- `ChinaSilverPrice` record from `src/lib/types.ts`. -/
structure ChinaSilverPrice where
  usdPrice : ℚ
  change : ℚ
  changePercent : ℚ
  premium : ℚ
  timestamp : ℤ
deriving DecidableEq

-- Exchange weights for aggregation (silverApi.ts lines 42-47).
namespace EXCHANGE_WEIGHTS

def LBMA : ℚ := 0.40

def COMEX : ℚ := 0.30

def SHANGHAI : ℚ := 0.20

def OTHER : ℚ := 0.10

end EXCHANGE_WEIGHTS

/-- Cache freshness window, ms (silverApi.ts line 50). -/
def CACHE_DURATION_MS : ℤ := 30000

/-- Retry cap (silverApi.ts line 57). -/
def MAX_RETRIES : ℕ := 3

/-- Initial backoff delay, ms (silverApi.ts line 58). -/
def INITIAL_RETRY_DELAY : ℕ := 1000

/-- Simulated per-call drift amplitude (silverApi.ts line 62). -/
def PRICE_FLUCTUATION_RANGE : ℚ := 0.3

def MIN_SILVER_PRICE : ℚ := 28

def MAX_SILVER_PRICE : ℚ := 35

def MIN_CHINA_PRICE : ℚ := 29

def MAX_CHINA_PRICE : ℚ := 36

def CHINA_BASE_PREMIUM : ℚ := 1.02

def CHINA_PREMIUM_VARIANCE : ℚ := 0.01

/-- `parseFloat(x.toFixed(2))`: round to two decimal places. -/
def toFixed2 (x : ℚ) : ℚ := (round (x * 100) : ℚ) / 100

/-- Initial value of the module-level `baseGlobalPrice` variable
(silverApi.ts line 72): `30.50 + Math.random() * 0.5`. -/
def initialBaseGlobalPrice (r : ℚ) : ℚ := 30.5 + r * 0.5

/-- `isCacheFresh` (silverApi.ts lines 108-110): `Date.now()` is an
explicit argument. -/
def isCacheFresh (now timestamp : ℤ) : Bool := now - timestamp < CACHE_DURATION_MS

/-- `getRetryDelay` (silverApi.ts lines 115-117): exponential backoff
delay as a function of the module-level `retryCount`. -/
def getRetryDelay (retryCount : ℕ) : ℕ := INITIAL_RETRY_DELAY * 2 ^ retryCount

/-- Decoded JSON body of a provider response together with the HTTP
`ok` flag. `xag = none` models a missing `rates.XAG` field. -/
structure ApiResponse where
  ok : Bool
  success : Bool
  xag : Option ℚ
deriving DecidableEq

/-- `fetchFromMetalpriceAPI` (silverApi.ts lines 122-143): absent key
short-circuits to `null`; a transport error or non-2xx response is
caught and yields `null`; on `success` with a truthy `rates.XAG` the
price is `1 / rates.XAG`; otherwise `null`. -/
def fetchFromMetalpriceAPI (key : String) (resp : Option ApiResponse) : Option ℚ :=
  if key = "" then none
  else
    match resp with
    | none => none
    | some d =>
      if d.ok = true ∧ d.success = true then
        match d.xag with
        | some x => if x ≠ 0 then some (1 / x) else none
        | none => none
      else none

/-- `fetchFromMetalsAPI` (silverApi.ts lines 148-169): identical
control flow against the second provider. -/
def fetchFromMetalsAPI (key : String) (resp : Option ApiResponse) : Option ℚ :=
  if key = "" then none
  else
    match resp with
    | none => none
    | some d =>
      if d.ok = true ∧ d.success = true then
        match d.xag with
        | some x => if x ≠ 0 then some (1 / x) else none
        | none => none
      else none

/-- The four `Math.random()` draws consumed by one call to
`simulateExchangePrices`, each in `[0, 1)`. -/
structure SimRands where
  r1 : ℚ
  r2 : ℚ
  r3 : ℚ
  r4 : ℚ
deriving DecidableEq

/-- `simulateExchangePrices` (silverApi.ts lines 174-207). -/
def simulateExchangePrices (basePrice : ℚ) (now : ℤ) (r : SimRands) : List ExchangePrice :=
  [ { exchange := "LBMA"
      price := basePrice * (1 + (r.r1 - 0.5) * 0.001)
      weight := EXCHANGE_WEIGHTS.LBMA
      active := true
      timestamp := now }
  , { exchange := "COMEX"
      price := basePrice * (1 + (r.r2 - 0.5) * 0.002)
      weight := EXCHANGE_WEIGHTS.COMEX
      active := true
      timestamp := now }
  , { exchange := "SHANGHAI"
      price := basePrice * (1.02 + (r.r3 - 0.5) * 0.003)
      weight := EXCHANGE_WEIGHTS.SHANGHAI
      active := true
      timestamp := now }
  , { exchange := "OTHER"
      price := basePrice * (1 + (r.r4 - 0.5) * 0.0015)
      weight := EXCHANGE_WEIGHTS.OTHER
      active := true
      timestamp := now } ]

/-- `calculateWeightedAverage` (silverApi.ts lines 212-223). The
no-active-quote branch is `exchanges[0]?.price || baseGlobalPrice`,
so a missing or zero (falsy) first price degrades to the module-level
`baseGlobalPrice`, passed here as an argument. -/
def calculateWeightedAverage (exchanges : List ExchangePrice) (baseGlobalPrice : ℚ) : ℚ :=
  let activeExchanges := exchanges.filter (fun e => e.active)
  match activeExchanges with
  | [] =>
    match exchanges.head? with
    | some e => if e.price = 0 then baseGlobalPrice else e.price
    | none => baseGlobalPrice
  | _ :: _ =>
    let totalWeight := activeExchanges.foldl (fun sum e => sum + e.weight) 0
    let weightedSum := activeExchanges.foldl (fun sum e => sum + e.price * e.weight) 0
    weightedSum / totalWeight

/-- `calculate24hMetrics` (silverApi.ts lines 228-242); `rVol` is the
`Math.random()` draw of the volume jitter. Returns (high, low, volume). -/
def calculate24hMetrics (history : List PricePoint) (rVol : ℚ) : ℚ × ℚ × ℤ :=
  match history.map (fun p => p.price) with
  | [] => (0, 0, 0)
  | p :: ps =>
    let high := ps.foldl max p
    let low := ps.foldl min p
    let volatility := (high - low) / low
    let volume := round (volatility * 1000000 * (1 + rVol * 0.5))
    (high, low, volume)

/-- `updatePriceHistory` (silverApi.ts lines 365-380): drop points at
or before `now − 24h`, then append `{time: now, price}`. -/
def updatePriceHistory (history : List PricePoint) (currentPrice : ℚ) (now : ℤ) : List PricePoint :=
  let hourInMs : ℤ := 60 * 60 * 1000
  let oneDayAgo : ℤ := now - 24 * hourInMs
  history.filter (fun p => oneDayAgo < p.time) ++ [{ time := now, price := currentPrice }]

/-- The module-level mutable state of silverApi.ts: the environment
configuration (lines 36-39), the retry counter (line 59), the drifting
simulation baselines (lines 72-73), the in-memory caches (lines 76-77)
and the three localStorage slots, modelled as typed options. -/
structure ApiState where
  USE_REAL_API : Bool
  METALPRICEAPI_KEY : String
  METALS_API_KEY : String
  COMMODITIES_API_KEY : String
  retryCount : ℕ
  baseGlobalPrice : ℚ
  baseChinaPrice : ℚ
  priceCache : Option SilverPrice
  chinaPriceCache : Option ChinaSilverPrice
  storagePrice : Option SilverPrice
  storageChina : Option ChinaSilverPrice
  storageHistory : Option (List PricePoint)
deriving DecidableEq

/-- The per-call inputs of `fetchSilverPrice`: the clock reading, the
two provider responses, and the `Math.random()` draws consumed by the
exchange simulation, the drift fluctuation and the volume jitter. -/
structure FetchInput where
  now : ℤ
  metalpriceResp : Option ApiResponse
  metalsResp : Option ApiResponse
  simRands : SimRands
  fluctRand : ℚ
  volRand : ℚ
deriving DecidableEq

/-- The simulated-data tail of `fetchSilverPrice` (silverApi.ts lines
326-359): drift and clamp `baseGlobalPrice`, simulate exchanges,
aggregate, update history, compute 24h metrics and deltas (with the
0.15 / 0.49 placeholders when no in-memory cache exists), build the
record and store it. -/
def mockSilverPrice (s : ApiState) (inp : FetchInput) : SilverPrice × ApiState :=
  let fluctuation := (inp.fluctRand - 0.5) * PRICE_FLUCTUATION_RANGE
  let newBase := max MIN_SILVER_PRICE (min MAX_SILVER_PRICE (s.baseGlobalPrice + fluctuation))
  let exchanges := simulateExchangePrices newBase inp.now inp.simRands
  let aggregatedPrice := calculateWeightedAverage exchanges newBase
  let history := updatePriceHistory (s.storageHistory.getD []) aggregatedPrice inp.now
  let metrics := calculate24hMetrics history inp.volRand
  let change : ℚ :=
    match s.priceCache with
    | some c => aggregatedPrice - c.price
    | none => 0.15
  let changePercent : ℚ :=
    match s.priceCache with
    | some c => if 0 < c.price then (aggregatedPrice - c.price) / c.price * 100 else 0.49
    | none => 0.49
  let silverPrice : SilverPrice :=
    { price := toFixed2 aggregatedPrice
      change := toFixed2 change
      changePercent := toFixed2 changePercent
      timestamp := inp.now
      high24h := some metrics.1
      low24h := some metrics.2.1
      volume24h := some metrics.2.2
      exchanges := some exchanges }
  (silverPrice,
   { s with baseGlobalPrice := newBase
            priceCache := some silverPrice
            storagePrice := some silverPrice
            storageHistory := some history })

/-- The successful-fetch branch of `fetchSilverPrice` (silverApi.ts
lines 267-302): the first successful provider price seeds the exchange
simulation; deltas default to 0 when no in-memory cache exists; the
retry counter resets to 0. -/
def apiSilverPrice (s : ApiState) (inp : FetchInput) (basePrice : ℚ) : SilverPrice × ApiState :=
  let exchanges := simulateExchangePrices basePrice inp.now inp.simRands
  let aggregatedPrice := calculateWeightedAverage exchanges s.baseGlobalPrice
  let history := updatePriceHistory (s.storageHistory.getD []) aggregatedPrice inp.now
  let metrics := calculate24hMetrics history inp.volRand
  let change : ℚ :=
    match s.priceCache with
    | some c => aggregatedPrice - c.price
    | none => 0
  let changePercent : ℚ :=
    match s.priceCache with
    | some c => if 0 < c.price then (aggregatedPrice - c.price) / c.price * 100 else 0
    | none => 0
  let silverPrice : SilverPrice :=
    { price := toFixed2 aggregatedPrice
      change := toFixed2 change
      changePercent := toFixed2 changePercent
      timestamp := inp.now
      high24h := some metrics.1
      low24h := some metrics.2.1
      volume24h := some metrics.2.2
      exchanges := some exchanges }
  (silverPrice,
   { s with priceCache := some silverPrice
            storagePrice := some silverPrice
            storageHistory := some history
            retryCount := 0 })

/-- `fetchSilverPrice` after a freshness miss (silverApi.ts lines
252-359). In API mode the two fetchers run and their non-null results
are collected (`Promise.allSettled` both fulfil, since each fetcher
catches its own errors). When at least one succeeded, the first price
is used; when none succeeded, control falls through to the simulated
path: the `catch` block holding the backoff and the stale-cache
fallbacks (lines 303-323) is unreachable, because nothing left in the
`try` block can throw. -/
def fetchSilverPriceMiss (s : ApiState) (inp : FetchInput) : SilverPrice × ApiState :=
  if s.USE_REAL_API = true ∧
      (s.METALPRICEAPI_KEY ≠ "" ∨ s.METALS_API_KEY ≠ "" ∨ s.COMMODITIES_API_KEY ≠ "") then
    let successfulPrices :=
      [fetchFromMetalpriceAPI s.METALPRICEAPI_KEY inp.metalpriceResp,
       fetchFromMetalsAPI s.METALS_API_KEY inp.metalsResp].filterMap id
    match successfulPrices with
    | basePrice :: _ => apiSilverPrice s inp basePrice
    | [] => mockSilverPrice s inp
  else
    mockSilverPrice s inp

/-- `fetchSilverPrice` (silverApi.ts lines 244-360): the freshness
gate over the persisted snapshot, then the miss path. -/
def fetchSilverPrice (s : ApiState) (inp : FetchInput) : SilverPrice × ApiState :=
  match s.storagePrice with
  | some cached =>
    if isCacheFresh inp.now cached.timestamp then
      (cached, { s with priceCache := some cached })
    else
      fetchSilverPriceMiss s inp
  | none => fetchSilverPriceMiss s inp

/-- The per-call inputs of `fetchChinaSilverPrice`: clock reading, the
inputs forwarded to the inner `fetchSilverPrice` call, the two provider
responses of the China block, and the premium / fluctuation draws. -/
structure ChinaInput where
  now : ℤ
  globalInput : FetchInput
  metalpriceResp : Option ApiResponse
  metalsResp : Option ApiResponse
  premiumRand : ℚ
  fluctRand : ℚ
deriving DecidableEq

/-- The successful-fetch branch of `fetchChinaSilverPrice` (silverApi.ts
lines 407-432): the provider price times the randomized Shanghai premium
gives the China USD price; the premium relative to the already-resolved
global aggregate is clamped at zero. -/
def chinaApiResult (s : ApiState) (globalPrice : SilverPrice) (inp : ChinaInput)
    (baseSilverPrice : ℚ) : ChinaSilverPrice × ApiState :=
  let chinaPremium := CHINA_BASE_PREMIUM + inp.premiumRand * CHINA_PREMIUM_VARIANCE
  let chinaUsdPrice := baseSilverPrice * chinaPremium
  let change : ℚ :=
    match s.chinaPriceCache with
    | some c => chinaUsdPrice - c.usdPrice
    | none => 0
  let changePercent : ℚ :=
    match s.chinaPriceCache with
    | some c => if 0 < c.usdPrice then (chinaUsdPrice - c.usdPrice) / c.usdPrice * 100 else 0
    | none => 0
  let premiumPercent := (chinaUsdPrice - globalPrice.price) / globalPrice.price * 100
  let result : ChinaSilverPrice :=
    { usdPrice := toFixed2 chinaUsdPrice
      change := toFixed2 change
      changePercent := toFixed2 changePercent
      premium := toFixed2 (max 0 premiumPercent)
      timestamp := inp.now }
  (result, { s with chinaPriceCache := some result, storageChina := some result })

/-- The simulated-data tail of `fetchChinaSilverPrice` (silverApi.ts
lines 450-473): drift and clamp `baseChinaPrice` (with the 0.18 / 0.58
placeholder deltas), premium relative to the global aggregate clamped
at zero. -/
def chinaMockResult (s : ApiState) (globalPrice : SilverPrice) (inp : ChinaInput) :
    ChinaSilverPrice × ApiState :=
  let fluctuation := (inp.fluctRand - 0.5) * PRICE_FLUCTUATION_RANGE
  let newBase := max MIN_CHINA_PRICE (min MAX_CHINA_PRICE (s.baseChinaPrice + fluctuation))
  let change : ℚ :=
    match s.chinaPriceCache with
    | some c => newBase - c.usdPrice
    | none => 0.18
  let changePercent : ℚ :=
    match s.chinaPriceCache with
    | some c => if 0 < c.usdPrice then (newBase - c.usdPrice) / c.usdPrice * 100 else 0.58
    | none => 0.58
  let premium := (newBase - globalPrice.price) / globalPrice.price * 100
  let result : ChinaSilverPrice :=
    { usdPrice := toFixed2 newBase
      change := toFixed2 change
      changePercent := toFixed2 changePercent
      premium := toFixed2 (max 0 premium)
      timestamp := inp.now }
  (result,
   { s with baseChinaPrice := newBase
            chinaPriceCache := some result
            storageChina := some result })

/-- `fetchChinaSilverPrice` after a freshness miss (silverApi.ts lines
390-473): resolve the global aggregate first, then in API mode consult
the providers again (the China `catch` block, lines 433-447, is
unreachable for the same reason as the global one), otherwise simulate. -/
def fetchChinaMiss (s : ApiState) (inp : ChinaInput) : ChinaSilverPrice × ApiState :=
  let resolved := fetchSilverPrice s inp.globalInput
  let globalPrice := resolved.1
  let s1 := resolved.2
  if s1.USE_REAL_API = true ∧ (s1.METALPRICEAPI_KEY ≠ "" ∨ s1.METALS_API_KEY ≠ "") then
    let successfulPrices :=
      [fetchFromMetalpriceAPI s1.METALPRICEAPI_KEY inp.metalpriceResp,
       fetchFromMetalsAPI s1.METALS_API_KEY inp.metalsResp].filterMap id
    match successfulPrices with
    | basePrice :: _ => chinaApiResult s1 globalPrice inp basePrice
    | [] => chinaMockResult s1 globalPrice inp
  else
    chinaMockResult s1 globalPrice inp

/-- `fetchChinaSilverPrice` (silverApi.ts lines 382-474): the freshness
gate over the persisted China snapshot, then the miss path. -/
def fetchChinaSilverPrice (s : ApiState) (inp : ChinaInput) : ChinaSilverPrice × ApiState :=
  match s.storageChina with
  | some cached =>
    if isCacheFresh inp.now cached.timestamp then
      (cached, { s with chinaPriceCache := some cached })
    else
      fetchChinaMiss s inp
  | none => fetchChinaMiss s inp

/-- The loop of `generateMockPriceHistory` (silverApi.ts lines
483-500), with `n` iterations left (the loop index `i` equals `n − 1`)
and `k` the index of the next unconsumed `Math.random()` draw (one for
the variation, then four inside `simulateExchangePrices`). -/
def mockHistoryLoop (currentPrice : ℚ) (now : ℤ) (rand : ℕ → ℚ) :
    ℕ → ℕ → ℚ → List PricePoint
  | 0, _, _ => []
  | n + 1, k, price =>
    let variation := (rand k - 0.5) * 0.5
    let price1 := max (price + variation) (currentPrice * 0.95)
    let price2 := min price1 (currentPrice * 1.05)
    let exchanges := simulateExchangePrices price2 now
      ⟨rand (k + 1), rand (k + 2), rand (k + 3), rand (k + 4)⟩
    let point : PricePoint :=
      { time := now - n * (60 * 60 * 1000)
        price := toFixed2 price2
        exchanges := some (exchanges.map (fun e => (e.exchange, toFixed2 e.price))) }
    point :: mockHistoryLoop currentPrice now rand n (k + 5) price2

/-- Overwrite the last element's price (the final
`history[history.length - 1].price = currentPrice` assignment,
silverApi.ts line 503). -/
def setLastPrice : List PricePoint → ℚ → List PricePoint
  | [], _ => []
  | [p], cp => [{ p with price := cp }]
  | p :: q :: ps, cp => p :: setLastPrice (q :: ps) cp

/-- `generateMockPriceHistory` (silverApi.ts lines 476-506). With
`points = 0` the loop never runs and the final assignment dereferences
`history[-1]`, which is `undefined`, so the call throws a `TypeError`:
that is modelled as `none`. -/
def generateMockPriceHistory (currentPrice : ℚ) (points : ℕ) (now : ℤ)
    (rand : ℕ → ℚ) : Option (List PricePoint) :=
  let price0 := currentPrice - (rand 0 * 2 - 1)
  let history := mockHistoryLoop currentPrice now rand points 1 price0
  match history with
  | [] => none
  | _ :: _ => some (setLastPrice history currentPrice)

/-! ## Helper lemmas -/

/-- Rounding is monotone. -/
lemma round_q_mono {x y : ℚ} (h : x ≤ y) : round x ≤ round y := by
  rw [round_eq, round_eq]
  exact Int.floor_le_floor (by linarith)

/-- Two-decimal rounding is monotone. -/
lemma toFixed2_mono {x y : ℚ} (h : x ≤ y) : toFixed2 x ≤ toFixed2 y := by
  unfold toFixed2
  have hr : round (x * 100) ≤ round (y * 100) := round_q_mono (by linarith)
  have : ((round (x * 100) : ℚ)) ≤ ((round (y * 100) : ℚ)) := by exact_mod_cast hr
  linarith

/-- Two-decimal rounding preserves non-negativity. -/
lemma toFixed2_nonneg {x : ℚ} (h : 0 ≤ x) : 0 ≤ toFixed2 x := by
  have h0 : toFixed2 0 = 0 := by norm_num [toFixed2]
  have := toFixed2_mono h
  linarith [h0 ▸ this]

/-- Reduce the source's `reduce`-style left fold of `+ f e` to a mapped sum. -/
lemma foldl_add_map (f : ExchangePrice → ℚ) :
    ∀ (l : List ExchangePrice) (a : ℚ),
      l.foldl (fun sum e => sum + f e) a = a + (l.map f).sum := by
  intro l
  induction l with
  | nil => intro a; simp
  | cons e t ih =>
    intro a
    simp only [List.foldl_cons, List.map_cons, List.sum_cons, ih]
    ring

/-- A non-empty list of quotes has a maximal-price element. -/
lemma exists_price_max :
    ∀ (l : List ExchangePrice), l ≠ [] → ∃ b ∈ l, ∀ e ∈ l, e.price ≤ b.price := by
  intro l
  induction l with
  | nil => simp
  | cons a t ih =>
    intro _
    cases t with
    | nil => exact ⟨a, by simp, by simp⟩
    | cons x s =>
      obtain ⟨b, hb, hmax⟩ := ih (by simp)
      rcases le_total a.price b.price with h | h
      · refine ⟨b, by simp [hb], ?_⟩
        intro e he
        rcases List.mem_cons.mp he with rfl | he
        · exact h
        · exact hmax e he
      · refine ⟨a, by simp, ?_⟩
        intro e he
        rcases List.mem_cons.mp he with rfl | he
        · exact le_refl _
        · exact le_trans (hmax e he) h

/-- A non-empty list of quotes has a minimal-price element. -/
lemma exists_price_min :
    ∀ (l : List ExchangePrice), l ≠ [] → ∃ b ∈ l, ∀ e ∈ l, b.price ≤ e.price := by
  intro l
  induction l with
  | nil => simp
  | cons a t ih =>
    intro _
    cases t with
    | nil => exact ⟨a, by simp, by simp⟩
    | cons x s =>
      obtain ⟨b, hb, hmin⟩ := ih (by simp)
      rcases le_total a.price b.price with h | h
      · refine ⟨a, by simp, ?_⟩
        intro e he
        rcases List.mem_cons.mp he with rfl | he
        · exact le_refl _
        · exact le_trans h (hmin e he)
      · refine ⟨b, by simp [hb], ?_⟩
        intro e he
        rcases List.mem_cons.mp he with rfl | he
        · exact h
        · exact hmin e he

/-- When the active filter is a cons, `calculateWeightedAverage` is the
weighted sum over the active quotes divided by their total weight. -/
lemma calculateWeightedAverage_eq (exchanges : List ExchangePrice) (bg : ℚ)
    (a : ExchangePrice) (t : List ExchangePrice)
    (h : exchanges.filter (fun e => e.active) = a :: t) :
    calculateWeightedAverage exchanges bg =
      ((a :: t).map (fun e => e.price * e.weight)).sum /
        ((a :: t).map (fun e => e.weight)).sum := by
  simp only [calculateWeightedAverage, h, foldl_add_map, zero_add]

/-! ## Claim C4 -/

/-- C4: for every list of exchange quotes whose subset of active quotes
is non-empty (with the data model's weight invariant, weight ∈ (0,1]),
the output of `calculateWeightedAverage` lies within the closed interval
from the minimum to the maximum price of the active quotes: some active
quote's price is below (or at) the output and some active quote's price
is above (or at) it. -/
theorem calculateWeightedAverage_within_bounds (exchanges : List ExchangePrice) (bg : ℚ)
    (hne : exchanges.filter (fun e => e.active) ≠ [])
    (hw : ∀ e ∈ exchanges.filter (fun e => e.active), 0 < e.weight ∧ e.weight ≤ 1) :
    (∃ a ∈ exchanges.filter (fun e => e.active),
        a.price ≤ calculateWeightedAverage exchanges bg) ∧
    (∃ b ∈ exchanges.filter (fun e => e.active),
        calculateWeightedAverage exchanges bg ≤ b.price) := by
  obtain ⟨a0, t, hcons⟩ := List.exists_cons_of_ne_nil hne
  set act : List ExchangePrice := a0 :: t with hactdef
  have havg := calculateWeightedAverage_eq exchanges bg a0 t hcons
  have hwact : ∀ e ∈ act, 0 < e.weight := by
    intro e he
    exact (hw e (hcons ▸ he)).1
  have hWpos : 0 < (act.map (fun e => e.weight)).sum := by
    apply List.sum_pos
    · intro x hx
      obtain ⟨e, he, rfl⟩ := List.mem_map.mp hx
      exact hwact e he
    · simp [hactdef]
  constructor
  · obtain ⟨a, ha, hmin⟩ := exists_price_min act (by simp [hactdef])
    refine ⟨a, hcons ▸ ha, ?_⟩
    rw [havg, le_div_iff₀ hWpos]
    have : ((act.map fun e => a.price * e.weight)).sum ≤
        ((act.map fun e => e.price * e.weight)).sum := by
      apply List.sum_le_sum
      intro e he
      exact mul_le_mul_of_nonneg_right (hmin e he) (le_of_lt (hwact e he))
    calc a.price * (act.map fun e => e.weight).sum
        = ((act.map fun e => a.price * e.weight)).sum := by
          rw [List.sum_map_mul_left]
      _ ≤ ((act.map fun e => e.price * e.weight)).sum := this
  · obtain ⟨b, hb, hmax⟩ := exists_price_max act (by simp [hactdef])
    refine ⟨b, hcons ▸ hb, ?_⟩
    rw [havg, div_le_iff₀ hWpos]
    have : ((act.map fun e => e.price * e.weight)).sum ≤
        ((act.map fun e => b.price * e.weight)).sum := by
      apply List.sum_le_sum
      intro e he
      exact mul_le_mul_of_nonneg_right (hmax e he) (le_of_lt (hwact e he))
    calc ((act.map fun e => e.price * e.weight)).sum
        ≤ ((act.map fun e => b.price * e.weight)).sum := this
      _ = b.price * (act.map fun e => e.weight).sum := by
          rw [List.sum_map_mul_left]

/-- C4 witness: a concrete quote list with one active and one inactive
quote satisfies the hypotheses and the bounds. -/
theorem calculateWeightedAverage_within_bounds_witness :
    (∃ a ∈ ([⟨"LBMA", 10, 1, true, 0⟩, ⟨"COMEX", 99, 1, false, 0⟩] :
        List ExchangePrice).filter (fun e => e.active),
        a.price ≤ calculateWeightedAverage
          [⟨"LBMA", 10, 1, true, 0⟩, ⟨"COMEX", 99, 1, false, 0⟩] 0) ∧
    (∃ b ∈ ([⟨"LBMA", 10, 1, true, 0⟩, ⟨"COMEX", 99, 1, false, 0⟩] :
        List ExchangePrice).filter (fun e => e.active),
        calculateWeightedAverage
          [⟨"LBMA", 10, 1, true, 0⟩, ⟨"COMEX", 99, 1, false, 0⟩] 0 ≤ b.price) :=
  calculateWeightedAverage_within_bounds
    [⟨"LBMA", 10, 1, true, 0⟩, ⟨"COMEX", 99, 1, false, 0⟩] 0
    (by simp [List.filter]) (by simp [List.filter])

/-! ## Claim C5 -/

/-- C5: `simulateExchangePrices` always produces exactly the four named
exchanges LBMA, COMEX, SHANGHAI, OTHER with weights 0.40/0.30/0.20/0.10
summing to 1 and all marked active; at zero perturbation (all four
random draws equal to 0.5) the weighted average of its output at base
price P is `P × (0.40 + 0.30 + 0.20 × 1.02 + 0.10) = P × 1.004`,
reflecting the Shanghai regional bias. -/
theorem simulateExchangePrices_weights_and_average :
    (∀ (P : ℚ) (now : ℤ) (r : SimRands),
      (simulateExchangePrices P now r).map (fun e => e.exchange) =
          ["LBMA", "COMEX", "SHANGHAI", "OTHER"] ∧
      (simulateExchangePrices P now r).map (fun e => e.weight) =
          [0.40, 0.30, 0.20, 0.10] ∧
      ((simulateExchangePrices P now r).map (fun e => e.weight)).sum = 1 ∧
      ∀ e ∈ simulateExchangePrices P now r, e.active = true) ∧
    (∀ (P : ℚ) (now : ℤ) (bg : ℚ),
      calculateWeightedAverage (simulateExchangePrices P now ⟨0.5, 0.5, 0.5, 0.5⟩) bg =
        P * (0.40 + 0.30 + 0.20 * 1.02 + 0.10)) := by
  constructor
  · intro P now r
    refine ⟨rfl, ?_, ?_, ?_⟩
    · simp [simulateExchangePrices, EXCHANGE_WEIGHTS.LBMA, EXCHANGE_WEIGHTS.COMEX,
        EXCHANGE_WEIGHTS.SHANGHAI, EXCHANGE_WEIGHTS.OTHER]
    · simp [simulateExchangePrices, EXCHANGE_WEIGHTS.LBMA, EXCHANGE_WEIGHTS.COMEX,
        EXCHANGE_WEIGHTS.SHANGHAI, EXCHANGE_WEIGHTS.OTHER]
      norm_num
    · intro e he
      simp only [simulateExchangePrices, List.mem_cons, List.not_mem_nil, or_false] at he
      rcases he with rfl | rfl | rfl | rfl <;> rfl
  · intro P now bg
    simp only [calculateWeightedAverage, simulateExchangePrices, List.filter,
      EXCHANGE_WEIGHTS.LBMA, EXCHANGE_WEIGHTS.COMEX, EXCHANGE_WEIGHTS.SHANGHAI,
      EXCHANGE_WEIGHTS.OTHER, List.foldl]
    norm_num
    ring

/-! ## Claim C6 -/

/-- C6: `updatePriceHistory` drops every point whose time is older than
(or exactly at) 24 hours before `now` and appends a point timestamped
`now`; consequently, whenever the input history contains no future
points (every stored point was stamped by an earlier `Date.now()`), no
two points of the returned history are more than 24 hours apart — in
particular no point is older than 24 hours before the most recent
point. -/
theorem updatePriceHistory_trims_24h (history : List PricePoint) (price : ℚ) (now : ℤ)
    (hle : ∀ p ∈ history, p.time ≤ now) :
    (∀ p ∈ history, p.time ≤ now - 24 * 3600000 →
        p ∉ updatePriceHistory history price now) ∧
    (∃ p ∈ updatePriceHistory history price now, p.time = now) ∧
    (∀ p ∈ updatePriceHistory history price now,
      ∀ q ∈ updatePriceHistory history price now,
        q.time - p.time < 24 * 3600000) := by
  have hmem : ∀ p ∈ updatePriceHistory history price now,
      (now - 24 * 3600000 < p.time ∧ p.time ≤ now) := by
    intro p hp
    simp only [updatePriceHistory, List.mem_append, List.mem_filter,
      List.mem_singleton] at hp
    rcases hp with ⟨hh, hf⟩ | rfl
    · have : now - 24 * (60 * 60 * 1000) < p.time := by
        have := of_decide_eq_true hf
        simpa using this
      constructor
      · linarith
      · exact hle p hh
    · norm_num
  refine ⟨?_, ?_, ?_⟩
  · intro p hp htime hmem'
    have := (hmem p hmem').1
    linarith
  · refine ⟨{ time := now, price := price }, ?_, rfl⟩
    simp [updatePriceHistory]
  · intro p hp q hq
    have h1 := (hmem p hp).1
    have h2 := (hmem q hq).2
    linarith

/-- C6 witness: a concrete three-point history spanning 30 hours (all
points stamped at or before `now`) is trimmed so that the retained
points all lie within 24 hours of the newest one. -/
theorem updatePriceHistory_trims_24h_witness :
    (∀ p ∈ ([⟨-108000000, 30, none⟩, ⟨-90000000, 31, none⟩, ⟨-3600000, 32, none⟩] :
        List PricePoint), p.time ≤ (0 : ℤ) - 24 * 3600000 →
        p ∉ updatePriceHistory
          [⟨-108000000, 30, none⟩, ⟨-90000000, 31, none⟩, ⟨-3600000, 32, none⟩] 33 0) ∧
    (∃ p ∈ updatePriceHistory
        [⟨-108000000, 30, none⟩, ⟨-90000000, 31, none⟩, ⟨-3600000, 32, none⟩] 33 0,
        p.time = 0) ∧
    (∀ p ∈ updatePriceHistory
        [⟨-108000000, 30, none⟩, ⟨-90000000, 31, none⟩, ⟨-3600000, 32, none⟩] 33 0,
      ∀ q ∈ updatePriceHistory
        [⟨-108000000, 30, none⟩, ⟨-90000000, 31, none⟩, ⟨-3600000, 32, none⟩] 33 0,
        q.time - p.time < 24 * 3600000) :=
  updatePriceHistory_trims_24h
    [⟨-108000000, 30, none⟩, ⟨-90000000, 31, none⟩, ⟨-3600000, 32, none⟩] 33 0
    (by intro p hp; simp only [List.mem_cons, List.not_mem_nil, or_false] at hp
        rcases hp with rfl | rfl | rfl <;> norm_num)

/-- Closed form of the weighted average of the simulated exchange list:
base price times an affine perturbation factor. -/
lemma weightedAverage_simulate (b : ℚ) (now : ℤ) (r : SimRands) (bg : ℚ) :
    calculateWeightedAverage (simulateExchangePrices b now r) bg =
      b * (1.004 + (r.r1 - 0.5) * 0.0004 + (r.r2 - 0.5) * 0.0006 +
        (r.r3 - 0.5) * 0.0006 + (r.r4 - 0.5) * 0.00015) := by
  simp only [calculateWeightedAverage, simulateExchangePrices, List.filter,
    EXCHANGE_WEIGHTS.LBMA, EXCHANGE_WEIGHTS.COMEX, EXCHANGE_WEIGHTS.SHANGHAI,
    EXCHANGE_WEIGHTS.OTHER, List.foldl]
  norm_num
  ring

/-- The new simulation baseline written by the mock path is the clamped
drifted baseline. -/
lemma mockSilverPrice_base (s : ApiState) (inp : FetchInput) :
    (mockSilverPrice s inp).2.baseGlobalPrice =
      max MIN_SILVER_PRICE (min MAX_SILVER_PRICE
        (s.baseGlobalPrice + (inp.fluctRand - 0.5) * PRICE_FLUCTUATION_RANGE)) := rfl

/-- The price returned by the mock path is the rounded weighted average
of the simulated exchanges seeded from the clamped baseline. -/
lemma mockSilverPrice_price (s : ApiState) (inp : FetchInput) :
    (mockSilverPrice s inp).1.price =
      toFixed2 (calculateWeightedAverage
        (simulateExchangePrices
          (max MIN_SILVER_PRICE (min MAX_SILVER_PRICE
            (s.baseGlobalPrice + (inp.fluctRand - 0.5) * PRICE_FLUCTUATION_RANGE)))
          inp.now inp.simRands)
        (max MIN_SILVER_PRICE (min MAX_SILVER_PRICE
          (s.baseGlobalPrice + (inp.fluctRand - 0.5) * PRICE_FLUCTUATION_RANGE)))) := rfl

/-- The clamp of the drifted baseline always lands in [28, 35]. -/
lemma clamp_mem (x : ℚ) :
    28 ≤ max MIN_SILVER_PRICE (min MAX_SILVER_PRICE x) ∧
    max MIN_SILVER_PRICE (min MAX_SILVER_PRICE x) ≤ 35 := by
  constructor
  · calc (28 : ℚ) = MIN_SILVER_PRICE := by norm_num [MIN_SILVER_PRICE]
      _ ≤ max MIN_SILVER_PRICE (min MAX_SILVER_PRICE x) := le_max_left _ _
  · apply max_le
    · norm_num [MIN_SILVER_PRICE]
    · calc min MAX_SILVER_PRICE x ≤ MAX_SILVER_PRICE := min_le_left _ _
        _ = 35 := by norm_num [MAX_SILVER_PRICE]

/-- With every API key empty the fetch never enters API mode, and a
stale (or absent) persisted snapshot sends it to the simulated path. -/
lemma fetchSilverPrice_no_keys_eq_mock (s : ApiState) (inp : FetchInput)
    (hmp : s.METALPRICEAPI_KEY = "") (hma : s.METALS_API_KEY = "")
    (hco : s.COMMODITIES_API_KEY = "")
    (hstale : ∀ c, s.storagePrice = some c → isCacheFresh inp.now c.timestamp = false) :
    fetchSilverPrice s inp = mockSilverPrice s inp := by
  have hmiss : fetchSilverPriceMiss s inp = mockSilverPrice s inp := by
    unfold fetchSilverPriceMiss
    rw [if_neg]
    simp [hmp, hma, hco]
  unfold fetchSilverPrice
  cases hsp : s.storagePrice with
  | none => exact hmiss
  | some cached =>
    have hfresh := hstale cached hsp
    simp only [hfresh, Bool.false_eq_true, if_false]
    exact hmiss

/-! ## Claim C2 -/

/-- A module state with no API key configured and the simulation
baseline at 34.9 — inside the [28, 35] invariant range of
`baseGlobalPrice` (see `baseGlobalPrice_bounds`) and reachable from the
initial value by repeated upward drift of the simulated path. -/
def noKeysState : ApiState :=
  { USE_REAL_API := false, METALPRICEAPI_KEY := "", METALS_API_KEY := "",
    COMMODITIES_API_KEY := "", retryCount := 0, baseGlobalPrice := 34.9,
    baseChinaPrice := 31.2, priceCache := none, chinaPriceCache := none,
    storagePrice := none, storageChina := none, storageHistory := none }

/-- A call at time 0 whose random draws all come out at 0.99. -/
def noKeysInput : FetchInput :=
  { now := 0, metalpriceResp := none, metalsResp := none,
    simRands := ⟨0.99, 0.99, 0.99, 0.99⟩, fluctRand := 0.99, volRand := 0 }

/-- C2 counterexample: with no API key configured the returned price can
exceed 35 (here it is 35.17: the baseline clamps to 35 and the simulated
Shanghai premium pushes the weighted average above it), so the claimed
interval [28, 35] is violated; moreover no constructed `SilverPrice`
carries any provenance field — the code never sets a `source` tag. -/
theorem noKeys_price_above_35_counterexample :
    noKeysState.METALPRICEAPI_KEY = "" ∧ noKeysState.METALS_API_KEY = "" ∧
    noKeysState.COMMODITIES_API_KEY = "" ∧
    35 < (fetchSilverPrice noKeysState noKeysInput).1.price := by
  refine ⟨rfl, rfl, rfl, ?_⟩
  norm_num [noKeysState, noKeysInput, fetchSilverPrice, fetchSilverPriceMiss,
    mockSilverPrice, simulateExchangePrices, calculateWeightedAverage,
    updatePriceHistory, calculate24hMetrics, toFixed2, isCacheFresh,
    PRICE_FLUCTUATION_RANGE, MIN_SILVER_PRICE, MAX_SILVER_PRICE,
    EXCHANGE_WEIGHTS.LBMA, EXCHANGE_WEIGHTS.COMEX, EXCHANGE_WEIGHTS.SHANGHAI,
    EXCHANGE_WEIGHTS.OTHER, List.filter, List.foldl, round_eq]

/-- C2 amended: with no API key configured and no fresh persisted
snapshot, `fetchSilverPrice` returns the simulated-path record (the
`SilverPrice` type carries no provenance field, so `source = simulated`
is not representable; provenance is witnessed by the result being the
mock-path value), and with the random draws in [0, 1) its price lies
within [28, 35.17]. -/
theorem fetchSilverPrice_no_keys_simulated_bounds (s : ApiState) (inp : FetchInput)
    (hmp : s.METALPRICEAPI_KEY = "") (hma : s.METALS_API_KEY = "")
    (hco : s.COMMODITIES_API_KEY = "")
    (hstale : ∀ c, s.storagePrice = some c → isCacheFresh inp.now c.timestamp = false)
    (h1 : 0 ≤ inp.simRands.r1) (h1' : inp.simRands.r1 < 1)
    (h2 : 0 ≤ inp.simRands.r2) (h2' : inp.simRands.r2 < 1)
    (h3 : 0 ≤ inp.simRands.r3) (h3' : inp.simRands.r3 < 1)
    (h4 : 0 ≤ inp.simRands.r4) (h4' : inp.simRands.r4 < 1) :
    fetchSilverPrice s inp = mockSilverPrice s inp ∧
    28 ≤ (fetchSilverPrice s inp).1.price ∧
    (fetchSilverPrice s inp).1.price ≤ 35.17 := by
  have hmock := fetchSilverPrice_no_keys_eq_mock s inp hmp hma hco hstale
  refine ⟨hmock, ?_⟩
  set b := max MIN_SILVER_PRICE (min MAX_SILVER_PRICE
    (s.baseGlobalPrice + (inp.fluctRand - 0.5) * PRICE_FLUCTUATION_RANGE)) with hbdef
  obtain ⟨hb1, hb2⟩ := clamp_mem
    (s.baseGlobalPrice + (inp.fluctRand - 0.5) * PRICE_FLUCTUATION_RANGE)
  set W : ℚ := 1.004 + (inp.simRands.r1 - 0.5) * 0.0004 +
    (inp.simRands.r2 - 0.5) * 0.0006 + (inp.simRands.r3 - 0.5) * 0.0006 +
    (inp.simRands.r4 - 0.5) * 0.00015 with hWdef
  have hp : (fetchSilverPrice s inp).1.price = toFixed2 (b * W) := by
    rw [hmock, mockSilverPrice_price, weightedAverage_simulate]
  have hW1 : (1.003125 : ℚ) ≤ W := by rw [hWdef]; nlinarith
  have hW2 : W ≤ 1.004875 := by rw [hWdef]; nlinarith
  have hW0 : (0 : ℚ) ≤ W := le_trans (by norm_num) hW1
  have hlow : (28 : ℚ) * 1.003125 ≤ b * W := by
    calc (28 : ℚ) * 1.003125 ≤ 28 * W := by nlinarith
      _ ≤ b * W := mul_le_mul_of_nonneg_right hb1 hW0
  have hhigh : b * W ≤ 35 * 1.004875 := by
    calc b * W ≤ 35 * W := mul_le_mul_of_nonneg_right hb2 hW0
      _ ≤ 35 * 1.004875 := by nlinarith
  have e1 : toFixed2 ((28 : ℚ) * 1.003125) = 28.09 := by
    norm_num [toFixed2, round_eq]
  have e2 : toFixed2 ((35 : ℚ) * 1.004875) = 35.17 := by
    norm_num [toFixed2, round_eq]
  constructor
  · have := toFixed2_mono hlow
    rw [hp]; rw [e1] at this; linarith
  · have := toFixed2_mono hhigh
    rw [hp]; rw [e2] at this; linarith

/-- C2 amended witness: the concrete no-key call satisfies all the
hypotheses and its price indeed lands in [28, 35.17]. -/
theorem fetchSilverPrice_no_keys_simulated_bounds_witness :
    fetchSilverPrice noKeysState noKeysInput = mockSilverPrice noKeysState noKeysInput ∧
    28 ≤ (fetchSilverPrice noKeysState noKeysInput).1.price ∧
    (fetchSilverPrice noKeysState noKeysInput).1.price ≤ 35.17 :=
  fetchSilverPrice_no_keys_simulated_bounds noKeysState noKeysInput rfl rfl rfl
    (by intro c hc; simp [noKeysState] at hc)
    (by norm_num [noKeysInput]) (by norm_num [noKeysInput])
    (by norm_num [noKeysInput]) (by norm_num [noKeysInput])
    (by norm_num [noKeysInput]) (by norm_num [noKeysInput])
    (by norm_num [noKeysInput]) (by norm_num [noKeysInput])

/-- Every non-mock path of `fetchSilverPrice` leaves `baseGlobalPrice`
untouched, and the mock path writes the clamp; so [28, 35] is preserved. -/
lemma fetchSilverPrice_base_mem (s : ApiState) (inp : FetchInput)
    (h1 : 28 ≤ s.baseGlobalPrice) (h2 : s.baseGlobalPrice ≤ 35) :
    28 ≤ (fetchSilverPrice s inp).2.baseGlobalPrice ∧
      (fetchSilverPrice s inp).2.baseGlobalPrice ≤ 35 := by
  have hmiss : 28 ≤ (fetchSilverPriceMiss s inp).2.baseGlobalPrice ∧
      (fetchSilverPriceMiss s inp).2.baseGlobalPrice ≤ 35 := by
    unfold fetchSilverPriceMiss
    split
    · cases hlist : [fetchFromMetalpriceAPI s.METALPRICEAPI_KEY inp.metalpriceResp,
        fetchFromMetalsAPI s.METALS_API_KEY inp.metalsResp].filterMap id with
      | nil =>
        simp only [hlist]
        rw [mockSilverPrice_base]
        exact clamp_mem _
      | cons basePrice rest =>
        simp only [hlist]
        exact ⟨h1, h2⟩
    · rw [mockSilverPrice_base]
      exact clamp_mem _
  unfold fetchSilverPrice
  cases hsp : s.storagePrice with
  | none => exact hmiss
  | some cached =>
    by_cases hfresh : isCacheFresh inp.now cached.timestamp = true
    · simp only [hfresh, if_true]
      exact ⟨h1, h2⟩
    · simp only [hfresh, if_false]
      exact hmiss

/-! ## Claim C10 -/

/-- C10: the simulation baseline `baseGlobalPrice` always lies within
[28, 35]: its initial value `30.50 + Math.random() × 0.5` lies within
[30.5, 31] ⊆ [28, 35]; the simulated path always replaces it with the
clamp of the drifted baseline into
[MIN_SILVER_PRICE, MAX_SILVER_PRICE] = [28, 35]; and every call to
`fetchSilverPrice` preserves membership in [28, 35]. -/
theorem baseGlobalPrice_bounds :
    (∀ r : ℚ, 0 ≤ r → r < 1 →
      30.5 ≤ initialBaseGlobalPrice r ∧ initialBaseGlobalPrice r ≤ 31 ∧
      28 ≤ initialBaseGlobalPrice r ∧ initialBaseGlobalPrice r ≤ 35) ∧
    (∀ (s : ApiState) (inp : FetchInput),
      28 ≤ (mockSilverPrice s inp).2.baseGlobalPrice ∧
      (mockSilverPrice s inp).2.baseGlobalPrice ≤ 35) ∧
    (∀ (s : ApiState) (inp : FetchInput),
      28 ≤ s.baseGlobalPrice → s.baseGlobalPrice ≤ 35 →
      28 ≤ (fetchSilverPrice s inp).2.baseGlobalPrice ∧
      (fetchSilverPrice s inp).2.baseGlobalPrice ≤ 35) := by
  refine ⟨?_, ?_, ?_⟩
  · intro r hr0 hr1
    unfold initialBaseGlobalPrice
    refine ⟨by nlinarith, by nlinarith, by nlinarith, by nlinarith⟩
  · intro s inp
    rw [mockSilverPrice_base]
    exact clamp_mem _
  · intro s inp h1 h2
    exact fetchSilverPrice_base_mem s inp h1 h2

/-- C10 witness: a concrete call (the no-key call above) keeps the
baseline inside [28, 35], and the initial draw 0.25 starts inside it. -/
theorem baseGlobalPrice_bounds_witness :
    (30.5 ≤ initialBaseGlobalPrice 0.25 ∧ initialBaseGlobalPrice 0.25 ≤ 31 ∧
      28 ≤ initialBaseGlobalPrice 0.25 ∧ initialBaseGlobalPrice 0.25 ≤ 35) ∧
    (28 ≤ (fetchSilverPrice noKeysState noKeysInput).2.baseGlobalPrice ∧
      (fetchSilverPrice noKeysState noKeysInput).2.baseGlobalPrice ≤ 35) :=
  ⟨baseGlobalPrice_bounds.1 0.25 (by norm_num) (by norm_num),
   baseGlobalPrice_bounds.2.2 noKeysState noKeysInput
     (by norm_num [noKeysState]) (by norm_num [noKeysState])⟩

/-! ## Claim C3 -/

/-- C3: if the persisted snapshot satisfies `now − timestamp < 30s`,
`fetchSilverPrice` returns it unchanged — the only state change is
copying it into the in-memory cache, so no fetch, no history update, no
baseline drift happens; if it is stale, the miss path runs and the
returned record is freshly recomputed (its timestamp is `now`). -/
theorem fetchSilverPrice_freshness_gate (s : ApiState) (inp : FetchInput)
    (cached : SilverPrice) (hc : s.storagePrice = some cached) :
    (isCacheFresh inp.now cached.timestamp = true →
      fetchSilverPrice s inp = (cached, { s with priceCache := some cached })) ∧
    (isCacheFresh inp.now cached.timestamp = false →
      (fetchSilverPrice s inp).1.timestamp = inp.now) := by
  have hmiss : (fetchSilverPriceMiss s inp).1.timestamp = inp.now := by
    unfold fetchSilverPriceMiss
    split
    · cases hlist : [fetchFromMetalpriceAPI s.METALPRICEAPI_KEY inp.metalpriceResp,
        fetchFromMetalsAPI s.METALS_API_KEY inp.metalsResp].filterMap id with
      | nil => simp only [hlist]; rfl
      | cons basePrice rest => simp only [hlist]; rfl
    · rfl
  constructor
  · intro hfresh
    unfold fetchSilverPrice
    rw [hc]
    simp only [hfresh, if_true]
  · intro hstale
    unfold fetchSilverPrice
    rw [hc]
    simp only [hstale, Bool.false_eq_true, if_false]
    exact hmiss

/-- A persisted snapshot stamped at time 0, used by the freshness
witnesses. -/
def freshCached : SilverPrice :=
  { price := 31, change := 0, changePercent := 0, timestamp := 0 }

/-- A module state holding `freshCached` as the persisted snapshot. -/
def freshState : ApiState :=
  { USE_REAL_API := false, METALPRICEAPI_KEY := "", METALS_API_KEY := "",
    COMMODITIES_API_KEY := "", retryCount := 0, baseGlobalPrice := 31,
    baseChinaPrice := 31.2, priceCache := none, chinaPriceCache := none,
    storagePrice := some freshCached, storageChina := none, storageHistory := none }

/-- An input clocked 10 seconds after the snapshot (freshness hit). -/
def freshInput : FetchInput :=
  { now := 10000, metalpriceResp := none, metalsResp := none,
    simRands := ⟨0.5, 0.5, 0.5, 0.5⟩, fluctRand := 0.5, volRand := 0 }

/-- An input clocked 40 seconds after the snapshot (freshness miss). -/
def staleInput : FetchInput :=
  { now := 40000, metalpriceResp := none, metalsResp := none,
    simRands := ⟨0.5, 0.5, 0.5, 0.5⟩, fluctRand := 0.5, volRand := 0 }

/-- C3 witness: a snapshot 10 s old is returned unchanged; one 40 s old
triggers recomputation (the result carries the new clock reading). -/
theorem fetchSilverPrice_freshness_gate_witness :
    fetchSilverPrice freshState freshInput =
      (freshCached, { freshState with priceCache := some freshCached }) ∧
    (fetchSilverPrice freshState staleInput).1.timestamp = 40000 :=
  ⟨(fetchSilverPrice_freshness_gate freshState freshInput freshCached rfl).1 (by decide),
   (fetchSilverPrice_freshness_gate freshState staleInput freshCached rfl).2 (by decide)⟩

/-! ## Claim C1 -/

/-- A stale persisted snapshot (stamped at time 0, 40 s before the
call below). -/
def staleSnapshot : SilverPrice :=
  { price := 30, change := 0, changePercent := 0, timestamp := 0 }

/-- An in-memory last-good snapshot (stamped at time 5000). -/
def memSnapshot : SilverPrice :=
  { price := 29, change := 0, changePercent := 0, timestamp := 5000 }

/-- A module state in API mode (a MetalpriceAPI key is configured) with
both a stale persisted snapshot and an in-memory snapshot available and
a non-zero retry counter. -/
def apiFailState : ApiState :=
  { USE_REAL_API := true, METALPRICEAPI_KEY := "k", METALS_API_KEY := "",
    COMMODITIES_API_KEY := "", retryCount := 2, baseGlobalPrice := 31,
    baseChinaPrice := 31.2, priceCache := some memSnapshot, chinaPriceCache := none,
    storagePrice := some staleSnapshot, storageChina := none, storageHistory := none }

/-- A call at time 40000 on which both providers suffer a transport
failure, so both fetchers produce no price. -/
def apiFailInput : FetchInput :=
  { now := 40000, metalpriceResp := none, metalsResp := none,
    simRands := ⟨0.5, 0.5, 0.5, 0.5⟩, fluctRand := 0.5, volRand := 0 }

/-- C1 counterexample: in API mode with every live fetcher failing,
`fetchSilverPrice` returns a freshly simulated record stamped `now` —
it does not return the persisted-but-stale snapshot, does not return
the in-memory snapshot, and does not touch the retry counter (so no
exponential backoff delay is taken). The backoff-and-fallback chain
claimed by the spec sits in a `catch` block that this execution cannot
reach, because the fetchers convert their failures to `null` instead of
throwing. -/
theorem allFetchersFail_fallback_counterexample :
    apiFailState.USE_REAL_API = true ∧
    apiFailState.METALPRICEAPI_KEY ≠ "" ∧
    fetchFromMetalpriceAPI apiFailState.METALPRICEAPI_KEY apiFailInput.metalpriceResp = none ∧
    fetchFromMetalsAPI apiFailState.METALS_API_KEY apiFailInput.metalsResp = none ∧
    apiFailState.storagePrice = some staleSnapshot ∧
    isCacheFresh apiFailInput.now staleSnapshot.timestamp = false ∧
    apiFailState.priceCache = some memSnapshot ∧
    (fetchSilverPrice apiFailState apiFailInput).1.timestamp = apiFailInput.now ∧
    (fetchSilverPrice apiFailState apiFailInput).1 ≠ staleSnapshot ∧
    (fetchSilverPrice apiFailState apiFailInput).1 ≠ memSnapshot ∧
    (fetchSilverPrice apiFailState apiFailInput).2.retryCount = apiFailState.retryCount := by
  have hts : (fetchSilverPrice apiFailState apiFailInput).1.timestamp = 40000 := rfl
  refine ⟨rfl, by decide, rfl, rfl, rfl, by decide, rfl, hts, ?_, ?_, rfl⟩
  · intro h
    rw [h] at hts
    exact absurd hts (by decide)
  · intro h
    rw [h] at hts
    exact absurd hts (by decide)

/-- C1 amended: in API mode, when every live fetcher fails to produce a
price (each returns `null`, having caught its own error), the
`catch`-block fallback chain never runs: `fetchSilverPrice` applies no
exponential backoff (the retry counter is untouched, so
`getRetryDelay` is never consulted), skips both the persisted-but-stale
and the in-memory values, and goes directly to freshly generated
simulated data stamped with the current time. -/
theorem fetchSilverPrice_allFetchersFail_simulated (s : ApiState) (inp : FetchInput)
    (hmode : s.USE_REAL_API = true)
    (hkey : s.METALPRICEAPI_KEY ≠ "" ∨ s.METALS_API_KEY ≠ "" ∨ s.COMMODITIES_API_KEY ≠ "")
    (hfail1 : fetchFromMetalpriceAPI s.METALPRICEAPI_KEY inp.metalpriceResp = none)
    (hfail2 : fetchFromMetalsAPI s.METALS_API_KEY inp.metalsResp = none)
    (hstale : ∀ c, s.storagePrice = some c → isCacheFresh inp.now c.timestamp = false) :
    fetchSilverPrice s inp = mockSilverPrice s inp ∧
    (fetchSilverPrice s inp).2.retryCount = s.retryCount ∧
    (fetchSilverPrice s inp).1.timestamp = inp.now := by
  have hmiss : fetchSilverPriceMiss s inp = mockSilverPrice s inp := by
    unfold fetchSilverPriceMiss
    rw [if_pos ⟨hmode, hkey⟩, hfail1, hfail2]
    rfl
  have hmock : fetchSilverPrice s inp = mockSilverPrice s inp := by
    unfold fetchSilverPrice
    cases hsp : s.storagePrice with
    | none => exact hmiss
    | some cached =>
      have hfresh := hstale cached hsp
      simp only [hfresh, Bool.false_eq_true, if_false]
      exact hmiss
  refine ⟨hmock, ?_, ?_⟩
  · rw [hmock]
    rfl
  · rw [hmock]
    rfl

/-- C1 amended witness: the concrete failing call above goes to the
simulated path, keeps `retryCount = 2` and is stamped at 40000. -/
theorem fetchSilverPrice_allFetchersFail_simulated_witness :
    fetchSilverPrice apiFailState apiFailInput = mockSilverPrice apiFailState apiFailInput ∧
    (fetchSilverPrice apiFailState apiFailInput).2.retryCount = apiFailState.retryCount ∧
    (fetchSilverPrice apiFailState apiFailInput).1.timestamp = apiFailInput.now :=
  fetchSilverPrice_allFetchersFail_simulated apiFailState apiFailInput rfl
    (Or.inl (by decide)) rfl rfl
    (by intro c hc
        simp only [apiFailState, Option.some.injEq] at hc
        subst hc
        decide)

/-- The API-path China premium field is the clamped, rounded premium. -/
lemma chinaApiResult_premium_nonneg (s : ApiState) (g : SilverPrice) (inp : ChinaInput)
    (b : ℚ) : 0 ≤ (chinaApiResult s g inp b).1.premium :=
  toFixed2_nonneg (le_max_left 0 _)

/-- The mock-path China premium field is the clamped, rounded premium. -/
lemma chinaMockResult_premium_nonneg (s : ApiState) (g : SilverPrice) (inp : ChinaInput) :
    0 ≤ (chinaMockResult s g inp).1.premium :=
  toFixed2_nonneg (le_max_left 0 _)

/-- Every miss-path result of the China fetch has non-negative premium. -/
lemma fetchChinaMiss_premium_nonneg (s : ApiState) (inp : ChinaInput) :
    0 ≤ (fetchChinaMiss s inp).1.premium := by
  simp only [fetchChinaMiss]
  split
  · split
    · exact chinaApiResult_premium_nonneg _ _ _ _
    · exact chinaMockResult_premium_nonneg _ _ _
  · exact chinaMockResult_premium_nonneg _ _ _

/-! ## Claim C8 -/

/-- C8: on the API-derived path the returned `premium` equals
`(chinaUsdPrice − globalAggregate.price) / globalAggregate.price × 100`
clamped below at zero (then rounded to cents), where `chinaUsdPrice` is
the provider price times the randomized Shanghai premium; on the
simulated path the same formula applies with the clamped drifted
`baseChinaPrice` as the USD price; hence on every recomputation path of
`fetchChinaSilverPrice` the premium field is ≥ 0 even when the raw
computed premium is negative. -/
theorem china_premium_clamped :
    (∀ (s : ApiState) (g : SilverPrice) (inp : ChinaInput) (b : ℚ),
      (chinaApiResult s g inp b).1.premium =
        toFixed2 (max 0
          ((b * (CHINA_BASE_PREMIUM + inp.premiumRand * CHINA_PREMIUM_VARIANCE) - g.price) /
            g.price * 100)) ∧
      0 ≤ (chinaApiResult s g inp b).1.premium) ∧
    (∀ (s : ApiState) (g : SilverPrice) (inp : ChinaInput),
      (chinaMockResult s g inp).1.premium =
        toFixed2 (max 0
          ((max MIN_CHINA_PRICE (min MAX_CHINA_PRICE
              (s.baseChinaPrice + (inp.fluctRand - 0.5) * PRICE_FLUCTUATION_RANGE)) -
            g.price) / g.price * 100)) ∧
      0 ≤ (chinaMockResult s g inp).1.premium) ∧
    (∀ (s : ApiState) (inp : ChinaInput),
      (∀ c, s.storageChina = some c → isCacheFresh inp.now c.timestamp = false) →
      0 ≤ (fetchChinaSilverPrice s inp).1.premium) := by
  refine ⟨?_, ?_, ?_⟩
  · intro s g inp b
    exact ⟨rfl, chinaApiResult_premium_nonneg s g inp b⟩
  · intro s g inp
    exact ⟨rfl, chinaMockResult_premium_nonneg s g inp⟩
  · intro s inp hstale
    unfold fetchChinaSilverPrice
    cases hsp : s.storageChina with
    | none => exact fetchChinaMiss_premium_nonneg s inp
    | some cached =>
      have hfresh := hstale cached hsp
      simp only [hfresh, Bool.false_eq_true, if_false]
      exact fetchChinaMiss_premium_nonneg s inp

/-- A concrete China-fetch call used by the C8 witness. -/
def chinaWitInput : ChinaInput :=
  { now := 0, globalInput := noKeysInput, metalpriceResp := none,
    metalsResp := none, premiumRand := 0.5, fluctRand := 0.5 }

/-- C8 witness: the concrete no-key call (no persisted China snapshot)
recomputes and yields a non-negative premium. -/
theorem china_premium_clamped_witness :
    0 ≤ (fetchChinaSilverPrice noKeysState chinaWitInput).1.premium :=
  china_premium_clamped.2.2 noKeysState chinaWitInput
    (by intro c hc; simp [noKeysState] at hc)

/-- The loop emits exactly one point per remaining iteration. -/
lemma mockHistoryLoop_length (cp : ℚ) (now : ℤ) (rand : ℕ → ℚ) :
    ∀ (n : ℕ) (k : ℕ) (p : ℚ), (mockHistoryLoop cp now rand n k p).length = n := by
  intro n
  induction n with
  | zero => intro k p; rfl
  | succ m ih =>
    intro k p
    simp only [mockHistoryLoop, List.length_cons, ih]

set_option maxRecDepth 4000 in
/-- The loop's timestamps descend from `now − (n−1)` hours to `now`. -/
lemma mockHistoryLoop_map_time (cp : ℚ) (now : ℤ) (rand : ℕ → ℚ) :
    ∀ (n : ℕ) (k : ℕ) (p : ℚ),
      (mockHistoryLoop cp now rand n k p).map (fun q => q.time) =
        (List.range n).map (fun j => now - ((n - 1 - j : ℕ) : ℤ) * 3600000) := by
  intro n
  induction n with
  | zero => intro k p; rfl
  | succ m ih =>
    intro k p
    rw [List.range_succ_eq_map]
    simp only [mockHistoryLoop, List.map_cons, ih, List.map_map, List.cons.injEq]
    constructor
    · norm_num
    · apply List.map_congr_left
      intro j hj
      simp only [Function.comp_apply]
      congr 2
      omega

/-- `setLastPrice` keeps the list length. -/
lemma setLastPrice_length :
    ∀ (l : List PricePoint) (cp : ℚ), (setLastPrice l cp).length = l.length := by
  intro l
  induction l with
  | nil => intro cp; rfl
  | cons p t ih =>
    intro cp
    cases t with
    | nil => rfl
    | cons q ts => simp only [setLastPrice, List.length_cons, ih]

/-- `setLastPrice` keeps every timestamp. -/
lemma setLastPrice_map_time :
    ∀ (l : List PricePoint) (cp : ℚ),
      (setLastPrice l cp).map (fun q => q.time) = l.map (fun q => q.time) := by
  intro l
  induction l with
  | nil => intro cp; rfl
  | cons p t ih =>
    intro cp
    cases t with
    | nil => rfl
    | cons q ts => simp only [setLastPrice, List.map_cons, ih]

/-- `setLastPrice` writes `cp` into the last element's price. -/
lemma setLastPrice_getLast_price :
    ∀ (l : List PricePoint) (cp : ℚ), l ≠ [] →
      (setLastPrice l cp).getLast?.map (fun q => q.price) = some cp := by
  intro l
  induction l with
  | nil => intro cp h; exact absurd rfl h
  | cons p t ih =>
    intro cp _
    cases t with
    | nil => rfl
    | cons q ts =>
      have hne : setLastPrice (q :: ts) cp ≠ [] := by
        have := setLastPrice_length (q :: ts) cp
        intro h
        rw [h] at this
        simp at this
      have hcons : ∃ a u, setLastPrice (q :: ts) cp = a :: u := by
        cases hx : setLastPrice (q :: ts) cp with
        | nil => exact absurd hx hne
        | cons a u => exact ⟨a, u, rfl⟩
      obtain ⟨a, u, hau⟩ := hcons
      calc (setLastPrice (p :: q :: ts) cp).getLast?.map (fun q => q.price)
          = (p :: setLastPrice (q :: ts) cp).getLast?.map (fun q => q.price) := rfl
        _ = (setLastPrice (q :: ts) cp).getLast?.map (fun q => q.price) := by
            rw [hau, List.getLast?_cons_cons]
        _ = some cp := ih cp (by simp)

/-- `getLast?` commutes with `map` on price points. -/
lemma getLast?_map_time :
    ∀ (l : List PricePoint), (l.map (fun q => q.time)).getLast? = l.getLast?.map (fun q => q.time) := by
  intro l
  induction l with
  | nil => rfl
  | cons p t ih =>
    cases t with
    | nil => rfl
    | cons q ts =>
      simp only [List.map_cons, List.getLast?_cons_cons] at ih ⊢
      simpa using ih

/-! ## Claim C7 -/

/-- C7 counterexample: `generateMockPriceHistory` called with
`pointCount = 0` does not return an array of 0 points — the final
`history[history.length - 1].price = currentPrice` assignment throws on
the empty array (modelled as `none`), so the universally quantified
claim fails at `pointCount = 0`. -/
theorem generateMockPriceHistory_zero_counterexample :
    generateMockPriceHistory 30 0 0 (fun _ => 0) = none := rfl

/-- C7 amended: for every `pointCount ≥ 1`, `generateMockPriceHistory`
returns exactly `pointCount` points whose timestamps are spaced one
hour apart ending at the current time (`time j = now − (pointCount − 1
− j) hours`), and the last element's price equals `currentPrice`
exactly. -/
theorem generateMockPriceHistory_shape (cp : ℚ) (points : ℕ) (now : ℤ) (rand : ℕ → ℚ)
    (hpts : 1 ≤ points) :
    ∃ l, generateMockPriceHistory cp points now rand = some l ∧
      l.length = points ∧
      l.map (fun q => q.time) =
        (List.range points).map (fun j => now - ((points - 1 - j : ℕ) : ℤ) * 3600000) ∧
      l.getLast?.map (fun q => q.time) = some now ∧
      l.getLast?.map (fun q => q.price) = some cp := by
  simp only [generateMockPriceHistory]
  have hlen := mockHistoryLoop_length cp now rand points 1 (cp - (rand 0 * 2 - 1))
  have htime := mockHistoryLoop_map_time cp now rand points 1 (cp - (rand 0 * 2 - 1))
  cases hh : mockHistoryLoop cp now rand points 1 (cp - (rand 0 * 2 - 1)) with
  | nil =>
    exfalso
    rw [hh] at hlen
    simp at hlen
    omega
  | cons a t =>
    rw [hh] at hlen htime
    refine ⟨setLastPrice (a :: t) cp, rfl, ?_, ?_, ?_, ?_⟩
    · rw [setLastPrice_length, hlen]
    · rw [setLastPrice_map_time, htime]
    · rw [← getLast?_map_time, setLastPrice_map_time, htime]
      obtain ⟨m, rfl⟩ : ∃ m, points = m + 1 := ⟨points - 1, by omega⟩
      rw [List.range_succ, List.map_append]
      simp only [List.map_cons, List.map_nil]
      rw [List.getLast?_concat]
      congr 1
      omega
    · exact setLastPrice_getLast_price (a :: t) cp (by simp)

/-- C7 amended witness: the spec scenario `getHistory(30.00, 24)`
returns 24 hourly points ending at the call time with last price
exactly 30.00. -/
theorem generateMockPriceHistory_shape_witness :
    ∃ l, generateMockPriceHistory 30 24 0 (fun _ => 0.5) = some l ∧
      l.length = 24 ∧
      l.map (fun q => q.time) =
        (List.range 24).map (fun j => (0 : ℤ) - ((24 - 1 - j : ℕ) : ℤ) * 3600000) ∧
      l.getLast?.map (fun q => q.time) = some 0 ∧
      l.getLast?.map (fun q => q.price) = some 30 :=
  generateMockPriceHistory_shape 30 24 0 (fun _ => 0.5) (by norm_num)

/-! ## Claim C9 -/

/-- C9: `generateMockPriceHistory` with `pointCount = 0` never returns
an empty array — the loop body does not execute and the final
assignment writes to the last element of an empty array, so the call
throws (modelled as `none`); the operation is total exactly under the
precondition `pointCount ≥ 1`. -/
theorem generateMockPriceHistory_zero_throws :
    (∀ (cp : ℚ) (now : ℤ) (rand : ℕ → ℚ),
      generateMockPriceHistory cp 0 now rand = none) ∧
    (∀ (cp : ℚ) (points : ℕ) (now : ℤ) (rand : ℕ → ℚ), 1 ≤ points →
      (generateMockPriceHistory cp points now rand).isSome = true) := by
  constructor
  · intro cp now rand
    rfl
  · intro cp points now rand hpts
    simp only [generateMockPriceHistory]
    have hlen := mockHistoryLoop_length cp now rand points 1 (cp - (rand 0 * 2 - 1))
    cases hh : mockHistoryLoop cp now rand points 1 (cp - (rand 0 * 2 - 1)) with
    | nil =>
      exfalso
      rw [hh] at hlen
      simp at hlen
      omega
    | cons a t => rfl

/-- C9 witness: at `pointCount = 0` the call yields `none`; at
`pointCount = 3` it yields a value. -/
theorem generateMockPriceHistory_zero_throws_witness :
    generateMockPriceHistory 31 0 5 (fun _ => 0) = none ∧
    (generateMockPriceHistory 31 3 5 (fun _ => 0)).isSome = true :=
  ⟨generateMockPriceHistory_zero_throws.1 31 5 (fun _ => 0),
   generateMockPriceHistory_zero_throws.2 31 3 5 (fun _ => 0) (by norm_num)⟩

end SilverApi
